import Mathlib

/-!
Shallow embedding of the `learning-actix` HTTP service (`src/main.rs`).

The repository's own code is the route registration in `main`, the handler
functions (`hello`, `echo`, `manual_hello`, `app_index`, `app_visits`,
`app_path`, `app_query`, `app_submit`, `app_profile`, `app_stream`) and the
scope configuration (`JsonConfig::default().limit(4096).error_handler(...)`).
The routing/extraction machinery itself lives in the actix-web framework and
is modelled here from the spec's description of RouteTable, Extractors and
the body/query/path extraction contracts; such definitions carry a doc
comment starting with `Modelled from the spec:`.

Requests are represented by a method together with a path given as its list
of slash-separated segments; responses are a status code together with a
body that is either a fixed string or a finite list of streamed chunks.
-/

namespace LearningActix

/-- HTTP methods used by the service's routes. -/
inductive Method where
  | GET
  | POST
deriving DecidableEq, Repr

/-- A response body: either a single buffered value or a finite ordered
sequence of streamed chunks (spec: ResponseDescriptor). -/
inductive Body where
  | fixed (s : String)
  | stream (chunks : List String)
deriving DecidableEq, Repr

/-- A response descriptor: status code plus body. -/
structure Response where
  status : Nat
  body : Body
deriving DecidableEq, Repr

/-- One segment of a path template: a literal, or a named dynamic segment
written `{name}` in the source. -/
inductive Seg where
  | lit (s : String)
  | dyn (name : String)
deriving DecidableEq, Repr

/-- Identifiers for the handler functions defined in `src/main.rs`. -/
inductive HandlerId where
  | hello
  | echo
  | wait
  | manualHello
  | appIndex
  | appVisits
  | appPath
  | appQuery
  | appSubmit
  | appProfile
  | appStream
deriving DecidableEq, Repr

/-- A registered route: method, full path template (scope prefix already
resolved), and the handler it dispatches to. -/
structure Route where
  method : Method
  pattern : List Seg
  handler : HandlerId
deriving DecidableEq, Repr

/-- Modelled from the spec: RouteTable segment matching. A literal template
segment matches exactly that text; a dynamic segment `{name}` matches any
non-empty literal segment and binds it, keyed by name (actix dynamic
segments match one or more non-slash characters). -/
def matchPattern : List Seg → List String → Option (List (String × String))
  | [], [] => some []
  | Seg.lit l :: ps, s :: ss =>
      if s = l then matchPattern ps ss else none
  | Seg.dyn n :: ps, s :: ss =>
      if s = "" then none else (matchPattern ps ss).map (fun bs => (n, s) :: bs)
  | _, _ => none

/-- The route table built by `main` in `src/main.rs`, in registration order:
`hello`, `echo`, `wait`, the manual `/hey` route, then the `/app` scope with
`app_index`, `app_visits`, `app_path`, `app_query`, `app_submit`,
`app_profile`.  Note that `app_stream` is defined in the source but never
registered with `.service(...)`. -/
def routes : List Route :=
  [ ⟨Method.GET, [], HandlerId.hello⟩,
    ⟨Method.POST, [Seg.lit "echo"], HandlerId.echo⟩,
    ⟨Method.GET, [Seg.lit "wait"], HandlerId.wait⟩,
    ⟨Method.GET, [Seg.lit "hey"], HandlerId.manualHello⟩,
    ⟨Method.GET, [Seg.lit "app", Seg.lit "index.html"], HandlerId.appIndex⟩,
    ⟨Method.GET, [Seg.lit "app", Seg.lit "visits.html"], HandlerId.appVisits⟩,
    ⟨Method.GET, [Seg.lit "app", Seg.lit "users", Seg.dyn "user_id", Seg.dyn "friend"],
      HandlerId.appPath⟩,
    ⟨Method.GET, [Seg.lit "app", Seg.lit "query"], HandlerId.appQuery⟩,
    ⟨Method.POST, [Seg.lit "app", Seg.lit "submit"], HandlerId.appSubmit⟩,
    ⟨Method.GET, [Seg.lit "app", Seg.lit "profile", Seg.dyn "username"], HandlerId.appProfile⟩ ]

/-- Modelled from the spec: RouteTable.match over a fixed list of routes,
first match in registration order wins. -/
def routeMatchAux (m : Method) (path : List String) :
    List Route → Option (HandlerId × List (String × String))
  | [] => none
  | r :: rs =>
      if r.method = m then
        match matchPattern r.pattern path with
        | some bs => some (r.handler, bs)
        | none => routeMatchAux m path rs
      else routeMatchAux m path rs

/-- `RouteTable.match` for the service's fixed route table. -/
def routeMatch (m : Method) (path : List String) :
    Option (HandlerId × List (String × String)) :=
  routeMatchAux m path routes

/-- Split a character list at every occurrence of `sep`. -/
def splitCharAux (sep : Char) (cur : List Char) : List Char → List String
  | [] => [String.mk cur.reverse]
  | c :: cs =>
      if c = sep then String.mk cur.reverse :: splitCharAux sep [] cs
      else splitCharAux sep (c :: cur) cs

/-- Split a string at every occurrence of the character `sep`. -/
def splitChar (sep : Char) (s : String) : List String :=
  splitCharAux sep [] s.data

/-- Split a path string into its non-empty slash-separated segments. -/
def pathSegments (p : String) : List String :=
  (splitChar '/' p).filter (fun s => decide (s ≠ ""))

/-- Handler `hello` (GET `/`): responds 200 "Hi there!". -/
def hello : Response := ⟨200, Body.fixed "Hi there!"⟩

/-- Handler `manual_hello` (routed at `/hey` via `web::get().to(...)`):
responds 200 "Hi there!". -/
def manual_hello : Response := ⟨200, Body.fixed "Hi there!"⟩

/-- Handler `echo` (POST `/echo`): responds 200 with the request body. -/
def echo (req_body : String) : Response := ⟨200, Body.fixed req_body⟩

/-- Handler `app_stream` (annotated GET `/stream`, never registered):
responds 200 with a streaming body consisting of the single chunk
"streamed body". -/
def app_stream : Response := ⟨200, Body.stream ["streamed body"]⟩

/-- Two's-complement wrap-around at 32 bits: the value of an `i32` after
arithmetic, as an integer in `[-2147483648, 2147483648)`. -/
def wrap32 (x : Int) : Int :=
  (x + 2147483648) % 4294967296 - 2147483648

/-- Handler `app_visits` (GET `/app/visits.html`): acquires the shared
counter, increments it (`*counter += 1` on a `Mutex<i32>`), and responds
with the stored value. The counter is an `i32`: the increment wraps at
`i32::MAX` (release semantics; a debug build would panic there instead of
producing any response). Embedded as an explicit state-passing function on
the counter. -/
def app_visits (counter : Int) : Int × Response :=
  let c2 := wrap32 (counter + 1)
  (c2, ⟨200, Body.fixed ("Visits so far: " ++ toString c2)⟩)

/-- The counter's initial value registered in `main`: `Mutex::new(0)`. -/
def initialCounter : Int := 0

/-- Run `n` sequential GET `/app/visits.html` requests starting from counter
value `c`, collecting the response bodies in order. -/
def visitsSeq : Nat → Int → List Response
  | 0, _ => []
  | n + 1, c =>
      let r := app_visits c
      r.2 :: visitsSeq n r.1

/-- Modelled from the spec: the structured extraction failure kinds of the
Extractors component. -/
inductive ExtractionError where
  | typeMismatch
  | missingSegment
  | missingField
  | payloadTooLarge
  | malformedBody
deriving DecidableEq, Repr

/-- Fold decimal digits into a number; `none` on any non-digit. -/
def digitsToNat (acc : Nat) : List Char → Option Nat
  | [] => some acc
  | c :: cs => if c.isDigit then digitsToNat (acc * 10 + (c.toNat - 48)) cs else none

/-- Modelled from the spec: converting a bound path segment to the target
field's declared unsigned-integer type (`u32`): all decimal digits, value
below `2 ^ 32`. -/
def parseU32 (s : String) : Option Nat :=
  if s = "" then none
  else
    match digitsToNat 0 s.data with
    | some n => if n < 2 ^ 32 then some n else none
    | none => none

/-- First value bound to key `k` in an association list. -/
def assocFind (k : String) : List (String × String) → Option String
  | [] => none
  | (k2, v) :: ps => if k2 = k then some v else assocFind k ps

/-- Modelled from the spec: the positional path extractor
(`web::Path<(u32, String)>` in `app_path`): takes the bound dynamic
segments in order of definition and converts each to its declared type. -/
def tuplePathExtract (params : List (String × String)) :
    Except ExtractionError (Nat × String) :=
  match params with
  | (_, v1) :: (_, v2) :: _ =>
      match parseU32 v1 with
      | some n => Except.ok (n, v2)
      | none => Except.error ExtractionError.typeMismatch
  | _ => Except.error ExtractionError.missingSegment

/-- The target shape of the structured path extractor in `src/main.rs`. -/
structure AppPathInfo where
  user_id : Nat
  friend : String
deriving DecidableEq, Repr

/-- Modelled from the spec: the structured-shape path extractor
(`web::Path<AppPathInfo>`): looks each declared field up by name among the
bound dynamic segments and converts it to the field's declared type. -/
def structPathExtract (params : List (String × String)) :
    Except ExtractionError AppPathInfo :=
  match assocFind "user_id" params, assocFind "friend" params with
  | some v1, some v2 =>
      match parseU32 v1 with
      | some n => Except.ok ⟨n, v2⟩
      | none => Except.error ExtractionError.typeMismatch
  | _, _ => Except.error ExtractionError.missingSegment

/-- Handler `app_path` (GET `/app/users/{user_id}/{friend}`): formats the
positional tuple's components; the structured extraction is read and
discarded in the source. -/
def app_path (path : Nat × String) (_struct_path : AppPathInfo) : Response :=
  ⟨200, Body.fixed ("Welcome " ++ path.2 ++ ", user_id " ++ toString path.1 ++ "!")⟩

/-- Modelled from the spec: the default mapping of an extraction failure to
a generic 400-class response when no scope error handler is configured. -/
def defaultExtractionError (_e : ExtractionError) : Response :=
  ⟨400, Body.fixed ""⟩

/-- Dispatch for the matched `app_path` route: run both declared extractors
against the same bound path parameters, then invoke the handler; an
extraction failure short-circuits to the default error response. -/
def dispatchAppPath (params : List (String × String)) : Response :=
  match tuplePathExtract params, structPathExtract params with
  | Except.ok t, Except.ok st => app_path t st
  | Except.error e, _ => defaultExtractionError e
  | _, Except.error e => defaultExtractionError e

/-- Split a character list at the first `=`, if any. -/
def splitFirstEq : List Char → Option (List Char × List Char)
  | [] => none
  | c :: cs =>
      if c = '=' then some ([], cs)
      else (splitFirstEq cs).map (fun r => (c :: r.1, r.2))

/-- Modelled from the spec: parsing the request's query string into
key-value pairs (`k1=v1&k2=v2`; a pair's value is everything after the
first `=`, empty segments are skipped, a segment without `=` binds the
empty value). -/
def queryPairs (qs : String) : List (String × String) :=
  (splitChar '&' qs).filterMap (fun kv =>
    if kv = "" then none
    else
      match splitFirstEq kv.data with
      | some r => some (String.mk r.1, String.mk r.2)
      | none => some (kv, ""))

/-- Last value bound to key `k`: the spec's last-value-wins rule for
duplicate query keys. -/
def lookupLast (k : String) (ps : List (String × String)) : Option String :=
  assocFind k ps.reverse

/-- The target shape of the query extractor in `src/main.rs`. -/
structure AppQueryParams where
  username : String
deriving DecidableEq, Repr

/-- Modelled from the spec: the query extractor for `AppQueryParams`; fails
with `missingField` if the required `username` key is absent. -/
def queryExtract (qs : String) : Except ExtractionError AppQueryParams :=
  match lookupLast "username" (queryPairs qs) with
  | some u => Except.ok ⟨u⟩
  | none => Except.error ExtractionError.missingField

/-- Handler `app_query` (GET `/app/query`): greets the extracted username. -/
def app_query (query : AppQueryParams) : Response :=
  ⟨200, Body.fixed ("Welcome " ++ query.username ++ "!")⟩

/-- Dispatch for the matched `app_query` route: extraction failure
short-circuits to the default error response, skipping the handler. -/
def dispatchQuery (qs : String) : Response :=
  match queryExtract qs with
  | Except.ok q => app_query q
  | Except.error e => defaultExtractionError e

/-- The opening-brace character of a JSON object. -/
def lbrace : Char := Char.ofNat 123

/-- The closing-brace character of a JSON object. -/
def rbrace : Char := Char.ofNat 125

/-- Drop leading JSON whitespace. -/
def skipWs : List Char → List Char
  | c :: cs => if c = ' ' ∨ c = '\n' ∨ c = '\t' ∨ c = '\r' then skipWs cs else c :: cs
  | [] => []

/-- Read the remainder of a JSON string literal after its opening quote;
escapes are not supported (such bodies simply fail to deserialize). -/
def stringLitRest (acc : List Char) : List Char → Option (String × List Char)
  | [] => none
  | c :: cs =>
      if c = '"' then some (String.mk acc.reverse, cs)
      else if c = '\\' then none
      else stringLitRest (c :: acc) cs

/-- Read a JSON string literal, returning its content and the rest. -/
def stringLit : List Char → Option (String × List Char)
  | c :: cs => if c = '"' then stringLitRest [] cs else none
  | [] => none

/-- Read one or more comma-separated `"key": "value"` members. -/
def jsonMembers : Nat → List Char → Option (List (String × String) × List Char)
  | 0, _ => none
  | fuel + 1, cs =>
      match stringLit (skipWs cs) with
      | none => none
      | some (k, cs1) =>
          match skipWs cs1 with
          | ':' :: cs2 =>
              match stringLit (skipWs cs2) with
              | none => none
              | some (v, cs3) =>
                  match skipWs cs3 with
                  | ',' :: cs4 =>
                      (jsonMembers fuel cs4).map (fun r => ((k, v) :: r.1, r.2))
                  | cs4 => some ([(k, v)], cs4)
          | _ => none

/-- Modelled from the spec: deserializing body bytes into a flat JSON
object of string fields (the declared schema of the submit shape); returns
`none` when the content cannot be deserialized. -/
def parseJsonObject (s : String) : Option (List (String × String)) :=
  match skipWs s.data with
  | [] => none
  | c :: cs =>
      if c = lbrace then
        match skipWs cs with
        | [] => none
        | c2 :: cs2 =>
            if c2 = rbrace then
              if skipWs cs2 = [] then some [] else none
            else
              match jsonMembers (cs.length) (c2 :: cs2) with
              | some (ps, rest) =>
                  match skipWs rest with
                  | c3 :: cs3 =>
                      if c3 = rbrace ∧ skipWs cs3 = [] then some ps else none
                  | [] => none
              | none => none
      else none

/-- The target shape of the JSON body extractor in `src/main.rs`. -/
structure AppSubmitInfo where
  username : String
  password : String
deriving DecidableEq, Repr

/-- Populate the submit shape from parsed JSON members; both required
fields must be present or extraction fails as a unit. -/
def submitFromPairs (ps : List (String × String)) : Option AppSubmitInfo :=
  match assocFind "username" ps, assocFind "password" ps with
  | some u, some p => some ⟨u, p⟩
  | _, _ => none

/-- Modelled from the spec: the JSON body extractor; reads up to `limit`
bytes and fails with `payloadTooLarge` if the body exceeds the limit, or
with `malformedBody` if its content cannot be deserialized into the target
shape. -/
def jsonBodyExtract (limit : Nat) (body : String) :
    Except ExtractionError AppSubmitInfo :=
  if limit < body.length then Except.error ExtractionError.payloadTooLarge
  else
    match parseJsonObject body with
    | some ps =>
        match submitFromPairs ps with
        | some info => Except.ok info
        | none => Except.error ExtractionError.malformedBody
    | none => Except.error ExtractionError.malformedBody

/-- The body-size limit configured on the `/app` scope in `main`:
`web::JsonConfig::default().limit(4096)`. -/
def submitLimit : Nat := 4096

/-- The scope's configured JSON error handler in `main`: maps every
extraction failure to `HttpResponse::Conflict()` (status 409, empty
body). -/
def submitErrorHandler (_err : ExtractionError) : Response :=
  ⟨409, Body.fixed ""⟩

/-- Handler `app_submit` (POST `/app/submit`): echoes the extracted
username and password. -/
def app_submit (body : AppSubmitInfo) : Response :=
  ⟨200, Body.fixed
    ("Submitting for " ++ body.username ++ " with password " ++ body.password ++ "!")⟩

/-- Dispatch for the matched `app_submit` route: body extraction under the
scope's configured limit; an extraction failure is routed through the
scope's configured error handler and the handler is not invoked. -/
def dispatchSubmit (body : String) : Response :=
  match jsonBodyExtract submitLimit body with
  | Except.ok info => app_submit info
  | Except.error e => submitErrorHandler e

deriving instance DecidableEq for Except

/-- Modelled from the spec: progress of one concurrent GET
`/app/visits.html` handler invocation — not yet started, holding the
exclusive lock together with the counter value it read under the lock, or
finished. -/
inductive ThStatus where
  | ready
  | locked (c : Int)
  | done
deriving DecidableEq, Repr

/-- Modelled from the spec: the Shared-Exclusive counter under concurrent
handler invocations — the counter value (the program's `i32`, kept in
`[-2147483648, 2147483648)` by `wrap32` at every write), the current lock
holder (at most one by construction of the steps), and every handler's
progress. -/
structure LockState where
  counter : Int
  holder : Option Nat
  pcs : List ThStatus
deriving DecidableEq, Repr

/-- Modelled from the spec: handler `i` acquires the exclusive lock; only
possible when no handler holds it. The counter is read under the lock, as
in `data.counter.lock().unwrap()`. -/
def doLock (i : Nat) (s : LockState) : Option LockState :=
  match s.pcs[i]?, s.holder with
  | some ThStatus.ready, none =>
      some ⟨s.counter, some i, s.pcs.set i (ThStatus.locked s.counter)⟩
  | _, _ => none

/-- Modelled from the spec: handler `i`, holding the lock, writes back its
read value plus one (`*counter += 1` on the `i32` counter, wrapping at
`i32::MAX`) and releases the lock on exit. -/
def doUnlock (i : Nat) (s : LockState) : Option LockState :=
  match s.pcs[i]?, s.holder with
  | some (ThStatus.locked c), some j =>
      if i = j then some ⟨wrap32 (c + 1), none, s.pcs.set i ThStatus.done⟩ else none
  | _, _ => none

/-- An interleaving action: some handler acquires or releases the lock. -/
inductive LockAct where
  | lock (i : Nat)
  | unlock (i : Nat)
deriving DecidableEq, Repr

/-- Execute a single interleaving action. -/
def execAct : LockAct → LockState → Option LockState
  | LockAct.lock i, s => doLock i s
  | LockAct.unlock i, s => doUnlock i s

/-- Execute a schedule of interleaving actions; `none` when an action's
precondition fails. The reachable states are exactly those of the form
`exec tr s₀ = some s`. -/
def exec : List LockAct → LockState → Option LockState
  | [], s => some s
  | a :: tr, s =>
      match execAct a s with
      | some s2 => exec tr s2
      | none => none

/-- The start state: counter at its initial value, lock free, `n` handler
invocations pending. -/
def initLockState (c0 : Int) (n : Nat) : LockState :=
  ⟨c0, none, List.replicate n ThStatus.ready⟩

/-- Number of finished handler invocations. -/
def countDone : List ThStatus → Nat
  | [] => 0
  | t :: ts => (if t = ThStatus.done then 1 else 0) + countDone ts

/-- Invariant of the Shared-Exclusive counter model: the counter equals the
32-bit wrap of the initial value plus the number of finished increments,
and a handler holding the lock is the unique lock holder and read the
current counter value. -/
def LockInv (c0 : Int) (s : LockState) : Prop :=
  s.counter = wrap32 (c0 + countDone s.pcs) ∧
  (∀ i c, s.pcs[i]? = some (ThStatus.locked c) → s.holder = some i ∧ c = s.counter)

/-- C1 counterexample: matching method GET against path `/app/stream` does
not succeed on the route table built by `main` — `app_stream` is defined in
the source but never registered, so `RouteTable.match` returns no route. -/
theorem stream_route_unregistered :
    routeMatch Method.GET (pathSegments "/app/stream") = none := by
  decide

/-- C1 (amended): the streaming handler `app_stream` exists and responds
with the single streamed chunk "streamed body", but no route of the table
built by `main` dispatches to it; in particular matching GET against
`/app/stream` returns no route. -/
theorem stream_handler_defined_but_unrouted :
    app_stream = ⟨200, Body.stream ["streamed body"]⟩ ∧
    (∀ r ∈ routes, r.handler ≠ HandlerId.appStream) ∧
    routeMatch Method.GET (pathSegments "/app/stream") = none := by
  refine ⟨rfl, by decide, by decide⟩

/-- A value already in `i32` range is unchanged by the 32-bit wrap. -/
theorem wrap32_eq_self (x : Int) (h1 : -2147483648 ≤ x) (h2 : x < 2147483648) :
    wrap32 x = x := by
  unfold wrap32
  omega

/-- A wrap-fixed value lies in `i32` range. -/
theorem wrap32_range (x : Int) (h : wrap32 x = x) :
    -2147483648 ≤ x ∧ x < 2147483648 := by
  unfold wrap32 at h
  omega

/-- Wrapping absorbs an already-wrapped summand. -/
theorem wrap32_add_wrap (x y : Int) : wrap32 (wrap32 x + y) = wrap32 (x + y) := by
  unfold wrap32
  omega

/-- C2 counterexample: invoking the visits handler with the shared `i32`
counter at `i32::MAX` does not increment it by one — the stored value wraps
to `-2147483648` and the returned body shows the wrapped value, not the
arithmetic successor claimed. -/
theorem visits_wrap_at_max :
    (app_visits 2147483647).1 = -2147483648 ∧
    (app_visits 2147483647).1 ≠ 2147483647 + 1 ∧
    (app_visits 2147483647).2 = ⟨200, Body.fixed "Visits so far: -2147483648"⟩ := by
  exact ⟨by decide, by decide, by decide⟩

/-- C2 (amended): each invocation of the visits handler whose stored `i32`
counter value does not overflow (the incremented value still fits in `i32`)
increments the shared counter by exactly one and returns the
post-increment value; starting from the initial counter 0 registered in
`main`, three sequential GET `/app/visits.html` requests return bodies
"Visits so far: 1", "2", "3". -/
theorem visits_increment_no_overflow :
    (∀ c : Int, -2147483648 ≤ c → c + 1 < 2147483648 →
      (app_visits c).1 = c + 1 ∧
      (app_visits c).2 = ⟨200, Body.fixed ("Visits so far: " ++ toString (c + 1))⟩) ∧
    visitsSeq 3 initialCounter =
      [⟨200, Body.fixed "Visits so far: 1"⟩,
       ⟨200, Body.fixed "Visits so far: 2"⟩,
       ⟨200, Body.fixed "Visits so far: 3"⟩] := by
  constructor
  · intro c h1 h2
    have hw : wrap32 (c + 1) = c + 1 := wrap32_eq_self (c + 1) (by omega) h2
    exact ⟨hw, by simp [app_visits, hw]⟩
  · decide

/-- C2 witness: at counter 0 the increment does not overflow and returns 1
with body "Visits so far: 1". -/
theorem visits_increment_no_overflow_witness :
    (-2147483648 : Int) ≤ 0 ∧ (0 : Int) + 1 < 2147483648 ∧
    (app_visits 0).1 = 0 + 1 ∧
    (app_visits 0).2 = ⟨200, Body.fixed ("Visits so far: " ++ toString ((0 : Int) + 1))⟩ := by
  refine ⟨by decide, by decide, ?_, ?_⟩
  · exact (visits_increment_no_overflow.1 0 (by decide) (by decide)).1
  · exact (visits_increment_no_overflow.1 0 (by decide) (by decide)).2

/-- C4: the echo handler is the identity on the request body with status
200, POST `/echo` routes to it, and body "abc" yields body "abc". -/
theorem echo_identity :
    (∀ b : String, echo b = ⟨200, Body.fixed b⟩) ∧
    routeMatch Method.POST (pathSegments "/echo") = some (HandlerId.echo, []) ∧
    echo "abc" = ⟨200, Body.fixed "abc"⟩ := by
  exact ⟨fun b => rfl, by decide, rfl⟩

/-- C9: the manually registered GET `/hey` route and the GET `/` route
dispatch to `manual_hello` and `hello` respectively, and the two handlers
produce identical responses: status 200 with body "Hi there!". -/
theorem hey_matches_root :
    manual_hello = hello ∧
    hello = ⟨200, Body.fixed "Hi there!"⟩ ∧
    routeMatch Method.GET (pathSegments "/hey") = some (HandlerId.manualHello, []) ∧
    routeMatch Method.GET (pathSegments "/") = some (HandlerId.hello, []) := by
  exact ⟨rfl, rfl, by decide, by decide⟩

/-- C5: for every GET `/app/users/{user_id}/{friend}` request whose
`user_id` segment converts to an unsigned integer, the route matches with
each dynamic segment bound to exactly the literal text present, and the
handler responds 200 with body "Welcome {friend}, user_id {user_id}!". -/
theorem users_route_dispatch (s1 s2 : String) (n : Nat)
    (hu : parseU32 s1 = some n) (h1 : s1 ≠ "") (h2 : s2 ≠ "") :
    routeMatch Method.GET ["app", "users", s1, s2] =
      some (HandlerId.appPath, [("user_id", s1), ("friend", s2)]) ∧
    dispatchAppPath [("user_id", s1), ("friend", s2)] =
      ⟨200, Body.fixed ("Welcome " ++ s2 ++ ", user_id " ++ toString n ++ "!")⟩ := by
  constructor
  · simp [routeMatch, routes, routeMatchAux, matchPattern, h1, h2]
  · simp [dispatchAppPath, tuplePathExtract, structPathExtract, assocFind, hu, app_path]

/-- C5 witness: GET `/app/users/7/sam` yields 200 with body
"Welcome sam, user_id 7!". -/
theorem users_route_dispatch_witness :
    parseU32 "7" = some 7 ∧ ("7" : String) ≠ "" ∧ ("sam" : String) ≠ "" ∧
    routeMatch Method.GET ["app", "users", "7", "sam"] =
      some (HandlerId.appPath, [("user_id", "7"), ("friend", "sam")]) ∧
    dispatchAppPath [("user_id", "7"), ("friend", "sam")] =
      ⟨200, Body.fixed "Welcome sam, user_id 7!"⟩ := by
  refine ⟨by decide, by decide, by decide,
    (users_route_dispatch "7" "sam" 7 (by decide) (by decide) (by decide)).1, ?_⟩
  exact (users_route_dispatch "7" "sam" 7 (by decide) (by decide) (by decide)).2.trans
    (by decide)

/-- C6: for GET `/app/query`, if the query string binds key `username` to
value `u` (last-value-wins), the handler responds 200 with body
"Welcome u!"; if the required `username` key is absent, query extraction
fails with `missingField` and the response is the default extraction error
response, the handler being skipped. -/
theorem query_username_cases (qs : String) :
    (∀ u, lookupLast "username" (queryPairs qs) = some u →
      queryExtract qs = Except.ok ⟨u⟩ ∧
      dispatchQuery qs = ⟨200, Body.fixed ("Welcome " ++ u ++ "!")⟩) ∧
    (lookupLast "username" (queryPairs qs) = none →
      queryExtract qs = Except.error ExtractionError.missingField ∧
      dispatchQuery qs = defaultExtractionError ExtractionError.missingField) := by
  constructor
  · intro u h
    have he : queryExtract qs = Except.ok ⟨u⟩ := by simp [queryExtract, h]
    exact ⟨he, by simp [dispatchQuery, he, app_query]⟩
  · intro h
    have he : queryExtract qs = Except.error ExtractionError.missingField := by
      simp [queryExtract, h]
    exact ⟨he, by simp [dispatchQuery, he]⟩

/-- C6 witness: `username=al` yields 200 "Welcome al!"; the empty query
string yields a `missingField` extraction failure. -/
theorem query_username_cases_witness :
    lookupLast "username" (queryPairs "username=al") = some "al" ∧
    dispatchQuery "username=al" = ⟨200, Body.fixed "Welcome al!"⟩ ∧
    lookupLast "username" (queryPairs "") = none ∧
    queryExtract "" = Except.error ExtractionError.missingField := by
  refine ⟨by decide, ?_, by decide, ((query_username_cases "").2 (by decide)).1⟩
  exact (((query_username_cases "username=al").1 "al" (by decide)).2).trans (by decide)

/-- C8: on the path parameters bound for GET
`/app/users/{user_id}/{friend}`, whenever both the positional tuple
extractor and the structured-shape extractor succeed, they extract
identical data: first tuple component = `user_id` field, second tuple
component = `friend` field. -/
theorem path_extractors_agree (s1 s2 : String) (t : Nat × String) (st : AppPathInfo)
    (ht : tuplePathExtract [("user_id", s1), ("friend", s2)] = Except.ok t)
    (hs : structPathExtract [("user_id", s1), ("friend", s2)] = Except.ok st) :
    t.1 = st.user_id ∧ t.2 = st.friend := by
  cases h : parseU32 s1 with
  | none => simp [tuplePathExtract, h] at ht
  | some n =>
      simp [tuplePathExtract, h] at ht
      simp [structPathExtract, assocFind, h] at hs
      cases t
      cases st
      simp_all

/-- C8 witness: on segments `7` and `sam` both extractors succeed and
agree componentwise. -/
theorem path_extractors_agree_witness :
    tuplePathExtract [("user_id", "7"), ("friend", "sam")] = Except.ok (7, "sam") ∧
    structPathExtract [("user_id", "7"), ("friend", "sam")] =
      Except.ok (⟨7, "sam"⟩ : AppPathInfo) ∧
    ((7, "sam") : Nat × String).1 = (⟨7, "sam"⟩ : AppPathInfo).user_id ∧
    ((7, "sam") : Nat × String).2 = (⟨7, "sam"⟩ : AppPathInfo).friend := by
  refine ⟨by decide, by decide, ?_, ?_⟩
  · exact (path_extractors_agree "7" "sam" (7, "sam") ⟨7, "sam"⟩ (by decide) (by decide)).1
  · exact (path_extractors_agree "7" "sam" (7, "sam") ⟨7, "sam"⟩ (by decide) (by decide)).2

/-- C3: every POST `/app/submit` body longer than the scope-configured
4096-byte limit fails extraction with `payloadTooLarge`, and dispatch
routes the failure through the scope's configured error handler, producing
its 409 Conflict response instead of invoking the handler. -/
theorem submit_oversize_conflict (body : String) (h : 4096 < body.length) :
    jsonBodyExtract submitLimit body = Except.error ExtractionError.payloadTooLarge ∧
    dispatchSubmit body = submitErrorHandler ExtractionError.payloadTooLarge ∧
    (dispatchSubmit body).status = 409 := by
  have he : jsonBodyExtract submitLimit body =
      Except.error ExtractionError.payloadTooLarge := by
    simp [jsonBodyExtract, submitLimit, h]
  exact ⟨he, by simp [dispatchSubmit, he], by simp [dispatchSubmit, he, submitErrorHandler]⟩

/-- C3 witness: a 4097-character body dispatches to a 409 response. -/
theorem submit_oversize_conflict_witness :
    4096 < (String.mk (List.replicate 4097 'x')).length ∧
    (dispatchSubmit (String.mk (List.replicate 4097 'x'))).status = 409 := by
  have hl : (String.mk (List.replicate 4097 'x')).length = 4097 := by
    rw [show (String.mk (List.replicate 4097 'x')).length =
      (List.replicate 4097 'x').length from rfl, List.length_replicate]
  refine ⟨by rw [hl]; decide, (submit_oversize_conflict _ (by rw [hl]; decide)).2.2⟩

/-- C10: every POST `/app/submit` body that successfully extracts into the
submit shape produces the response body
"Submitting for {username} with password {password}!" — the password is
echoed back in plaintext. -/
theorem submit_success_body (body : String) (info : AppSubmitInfo)
    (h : jsonBodyExtract submitLimit body = Except.ok info) :
    dispatchSubmit body =
      ⟨200, Body.fixed ("Submitting for " ++ info.username ++ " with password " ++
        info.password ++ "!")⟩ := by
  simp [dispatchSubmit, h, app_submit]

/-- C10 witness: the JSON body with username "al" and password "pw"
extracts successfully and produces
"Submitting for al with password pw!". -/
theorem submit_success_body_witness :
    jsonBodyExtract submitLimit "\x7b\"username\": \"al\", \"password\": \"pw\"\x7d" =
      Except.ok (⟨"al", "pw"⟩ : AppSubmitInfo) ∧
    dispatchSubmit "\x7b\"username\": \"al\", \"password\": \"pw\"\x7d" =
      ⟨200, Body.fixed "Submitting for al with password pw!"⟩ := by
  refine ⟨by decide, ?_⟩
  exact (submit_success_body "\x7b\"username\": \"al\", \"password\": \"pw\"\x7d"
    ⟨"al", "pw"⟩ (by decide)).trans (by decide)

/-- Setting a non-done status over a non-done status keeps the number of
finished invocations unchanged. -/
theorem countDone_set_of_ne_done (ts : List ThStatus) (i : Nat) (v w : ThStatus)
    (hv : ts[i]? = some v) (hvne : v ≠ ThStatus.done) (hwne : w ≠ ThStatus.done) :
    countDone (ts.set i w) = countDone ts := by
  induction ts generalizing i with
  | nil => simp at hv
  | cons t ts ih =>
      cases i with
      | zero =>
          simp at hv
          subst hv
          simp [countDone, hvne, hwne]
      | succ i =>
          simp at hv
          simp [countDone, List.set]
          exact ih i hv

/-- Finishing a previously unfinished invocation increases the number of
finished invocations by one. -/
theorem countDone_set_done (ts : List ThStatus) (i : Nat) (v : ThStatus)
    (hv : ts[i]? = some v) (hvne : v ≠ ThStatus.done) :
    countDone (ts.set i ThStatus.done) = countDone ts + 1 := by
  induction ts generalizing i with
  | nil => simp at hv
  | cons t ts ih =>
      cases i with
      | zero =>
          simp at hv
          subst hv
          simp [countDone, hvne]
          omega
      | succ i =>
          simp at hv
          simp [countDone, List.set]
          rw [ih i hv]
          omega

/-- No invocation is finished at the start. -/
theorem countDone_replicate_ready (n : Nat) :
    countDone (List.replicate n ThStatus.ready) = 0 := by
  induction n with
  | zero => rfl
  | succ n ih => simp [List.replicate, countDone, ih]

/-- All `n` invocations finished count as `n`. -/
theorem countDone_replicate_done (n : Nat) :
    countDone (List.replicate n ThStatus.done) = n := by
  induction n with
  | zero => rfl
  | succ n ih =>
      simp [List.replicate, countDone, ih]
      omega

/-- The invariant holds in the start state when the initial counter value
is a valid `i32`. -/
theorem lockInv_init (c0 : Int) (n : Nat) (hc0 : wrap32 c0 = c0) :
    LockInv c0 (initLockState c0 n) := by
  constructor
  · show c0 = wrap32 (c0 + (countDone (List.replicate n ThStatus.ready) : Int))
    rw [countDone_replicate_ready]
    simpa using hc0.symm
  · intro i c hi
    simp only [initLockState, List.getElem?_replicate] at hi
    split at hi
    · simp at hi
    · simp at hi

/-- Acquiring the lock preserves the invariant. -/
theorem lockInv_doLock (c0 : Int) (i : Nat) (s s2 : LockState)
    (h : LockInv c0 s) (hs : doLock i s = some s2) : LockInv c0 s2 := by
  unfold doLock at hs
  split at hs
  next heq1 heq2 =>
    cases hs
    constructor
    · show s.counter =
        wrap32 (c0 + (countDone (s.pcs.set i (ThStatus.locked s.counter)) : Int))
      rw [countDone_set_of_ne_done s.pcs i ThStatus.ready (ThStatus.locked s.counter) heq1
        (by simp) (by simp)]
      exact h.1
    · intro j c hj
      dsimp only at hj ⊢
      by_cases hij : i = j
      · subst hij
        have hlt : i < s.pcs.length := (List.getElem?_eq_some.mp heq1).1
        rw [List.getElem?_set_eq_of_lt (ThStatus.locked s.counter) hlt] at hj
        simp at hj
        exact ⟨rfl, hj.symm⟩
      · rw [List.getElem?_set_ne hij] at hj
        have h2 := (h.2 j c hj).1
        rw [heq2] at h2
        cases h2
  next => cases hs

/-- Incrementing under the lock and releasing preserves the invariant. -/
theorem lockInv_doUnlock (c0 : Int) (i : Nat) (s s2 : LockState)
    (h : LockInv c0 s) (hs : doUnlock i s = some s2) : LockInv c0 s2 := by
  unfold doUnlock at hs
  split at hs
  next c j heq1 heq2 =>
    split at hs
    · next hij =>
        cases hs
        constructor
        · show wrap32 (c + 1) = wrap32 (c0 + (countDone (s.pcs.set i ThStatus.done) : Int))
          have h1 := h.1
          have h2 := (h.2 i c heq1).2
          rw [countDone_set_done s.pcs i (ThStatus.locked c) heq1 (by simp)]
          rw [h2, h1]
          rw [wrap32_add_wrap (c0 + (countDone s.pcs : Int)) 1]
          push_cast
          ring_nf
        · intro k c2 hk
          dsimp only at hk ⊢
          by_cases hik : i = k
          · subst hik
            have hlt : i < s.pcs.length := (List.getElem?_eq_some.mp heq1).1
            rw [List.getElem?_set_eq_of_lt ThStatus.done hlt] at hk
            simp at hk
          · rw [List.getElem?_set_ne hik] at hk
            have hk2 := (h.2 k c2 hk).1
            have hi2 := (h.2 i c heq1).1
            exact absurd (Option.some.inj (hi2.symm.trans hk2)) hik
    · next => cases hs
  next => cases hs

/-- Every interleaving action preserves the invariant. -/
theorem lockInv_execAct (c0 : Int) (a : LockAct) (s s2 : LockState)
    (h : LockInv c0 s) (hs : execAct a s = some s2) : LockInv c0 s2 := by
  cases a with
  | lock i => exact lockInv_doLock c0 i s s2 h hs
  | unlock i => exact lockInv_doUnlock c0 i s s2 h hs

/-- Every executable schedule preserves the invariant. -/
theorem lockInv_exec (c0 : Int) (tr : List LockAct) (s s2 : LockState)
    (h : LockInv c0 s) (hex : exec tr s = some s2) : LockInv c0 s2 := by
  induction tr generalizing s with
  | nil =>
      simp only [exec] at hex
      cases hex
      exact h
  | cons a tr ih =>
      simp only [exec] at hex
      cases ha : execAct a s with
      | none =>
          simp only [ha] at hex
          cases hex
      | some s3 =>
          simp only [ha] at hex
          exact ih s3 (lockInv_execAct c0 a s s3 h ha) hex

/-- C7 counterexample: one increment scheduled from an initial counter of
`i32::MAX` runs to completion, yet the final counter is the wrapped value
`-2147483648`, not the initial value plus one — the exact-sum conclusion of
the claim fails on the `i32` counter. -/
theorem lost_increment_at_max :
    exec [LockAct.lock 0, LockAct.unlock 0] (initLockState 2147483647 1) =
      some ⟨-2147483648, none, [ThStatus.done]⟩ ∧
    (⟨-2147483648, none, [ThStatus.done]⟩ : LockState).pcs =
      List.replicate 1 ThStatus.done ∧
    (⟨-2147483648, none, [ThStatus.done]⟩ : LockState).counter ≠ 2147483647 + (1 : Nat) := by
  exact ⟨by decide, by decide, by decide⟩

/-- C7 (amended): for the visits counter held as Shared-Exclusive state
with a valid `i32` initial value, every interleaving of `n` concurrent
increments that runs to completion leaves the counter at the 32-bit wrap
of its initial value plus `n` — no update is lost, each one landing in the
wrapped sum; the final value equals initial plus exactly `n` whenever that
sum does not overflow `i32`. In every reachable state at most one handler
holds the exclusive lock. -/
theorem visits_no_lost_updates_wrap (c0 : Int) (n : Nat) (tr : List LockAct)
    (s : LockState) (hc0 : wrap32 c0 = c0)
    (hex : exec tr (initLockState c0 n) = some s) :
    (s.pcs = List.replicate n ThStatus.done → s.counter = wrap32 (c0 + n)) ∧
    (s.pcs = List.replicate n ThStatus.done → c0 + n < 2147483648 →
      s.counter = c0 + n) ∧
    (∀ (i j : Nat) (ci cj : Int), s.pcs[i]? = some (ThStatus.locked ci) →
      s.pcs[j]? = some (ThStatus.locked cj) → i = j) := by
  have hinv := lockInv_exec c0 tr (initLockState c0 n) s (lockInv_init c0 n hc0) hex
  have hdone : s.pcs = List.replicate n ThStatus.done → s.counter = wrap32 (c0 + n) := by
    intro hall
    rw [hinv.1, hall, countDone_replicate_done]
  refine ⟨hdone, ?_, ?_⟩
  · intro hall hlt
    have hr := wrap32_range c0 hc0
    rw [hdone hall]
    exact wrap32_eq_self (c0 + n) (by omega) hlt
  · intro i j ci cj hi hj
    have h1 := (hinv.2 i ci hi).1
    have h2 := (hinv.2 j cj hj).1
    exact Option.some.inj (h1.symm.trans h2)

/-- C7 witness: two increments scheduled sequentially from counter 0 run to
completion without overflow and leave the counter at exactly 2. -/
theorem visits_no_lost_updates_wrap_witness :
    wrap32 0 = 0 ∧
    exec [LockAct.lock 0, LockAct.unlock 0, LockAct.lock 1, LockAct.unlock 1]
        (initLockState 0 2) =
      some ⟨2, none, [ThStatus.done, ThStatus.done]⟩ ∧
    (⟨2, none, [ThStatus.done, ThStatus.done]⟩ : LockState).pcs =
      List.replicate 2 ThStatus.done ∧
    (0 : Int) + (2 : Nat) < 2147483648 ∧
    (⟨2, none, [ThStatus.done, ThStatus.done]⟩ : LockState).counter = 0 + (2 : Nat) := by
  refine ⟨by decide, by decide, by decide, by decide, ?_⟩
  exact (visits_no_lost_updates_wrap 0 2
    [LockAct.lock 0, LockAct.unlock 0, LockAct.lock 1, LockAct.unlock 1]
    ⟨2, none, [ThStatus.done, ThStatus.done]⟩ (by decide) (by decide)).2.1
    (by decide) (by decide)

end LearningActix
